import Mathlib

/-!
Verification of the chunk-view geometry builder and draw dispatcher of the
plantex client (src/client/src/world/chunk_view.rs).

The Rust source is shallowly embedded below.  f32 arithmetic is modelled by
the real numbers, the growing Vec buffers by Lean lists that each builder
appends to, and the glium draw calls by a list of draw events.  Constants and
helpers that live in the external base crate (HEX_OUTER_RADIUS,
PILLAR_STEP_HEIGHT, CHUNK_SIZE, the axial to_real projections, HeightType,
materials, plant views, the camera) are passed as parameters or modelled from
the specification, as noted on each definition.
-/

set_option maxHeartbeats 1000000

namespace Plantex

/-- Vertex type used to render chunks (hex pillars): a position and a normal,
as in the Rust struct Vertex of chunk_view.rs. -/
structure Vertex where
  position : ℝ × ℝ × ℝ
  normal : ℝ × ℝ × ℝ

instance : Inhabited Vertex := ⟨⟨(0, 0, 0), (0, 0, 0)⟩⟩

/-- hex_corner of chunk_view.rs: one corner point of a hexagon of the given
size, at angle 60 i + 30 degrees, with real cosine and sine in place of the
f32 trigonometry of the source. -/
noncomputable def hex_corner (size : ℝ) (i : ℤ) : ℝ × ℝ :=
  (size * Real.cos ((Real.pi / 180) * (60 * (i : ℝ) + 30)),
   size * Real.sin ((Real.pi / 180) * (60 * (i : ℝ) + 30)))

/-- get_top_hexagon_model of chunk_view.rs.  The radius and stepHeight
arguments stand for the base-crate constants HEX_OUTER_RADIUS and
PILLAR_STEP_HEIGHT; the two lists are the shared vertex and index buffers the
function appends to. -/
noncomputable def get_top_hexagon_model (radius stepHeight : ℝ)
    (vertices : List Vertex) (indices : List ℕ) : List Vertex × List ℕ :=
  let cur_len := vertices.length
  (vertices ++
    [⟨((hex_corner radius 0).1, (hex_corner radius 0).2, stepHeight), (0, 0, 1)⟩,
     ⟨((hex_corner radius 1).1, (hex_corner radius 1).2, stepHeight), (0, 0, 1)⟩,
     ⟨((hex_corner radius 2).1, (hex_corner radius 2).2, stepHeight), (0, 0, 1)⟩,
     ⟨((hex_corner radius 3).1, (hex_corner radius 3).2, stepHeight), (0, 0, 1)⟩,
     ⟨((hex_corner radius 4).1, (hex_corner radius 4).2, stepHeight), (0, 0, 1)⟩,
     ⟨((hex_corner radius 5).1, (hex_corner radius 5).2, stepHeight), (0, 0, 1)⟩,
     ⟨(0, 0, stepHeight), (0, 0, 1)⟩],
   indices ++
    [cur_len + 0, cur_len + 6, cur_len + 1,
     cur_len + 5, cur_len + 6, cur_len + 0,
     cur_len + 4, cur_len + 6, cur_len + 5,
     cur_len + 3, cur_len + 6, cur_len + 4,
     cur_len + 2, cur_len + 6, cur_len + 3,
     cur_len + 1, cur_len + 6, cur_len + 2])

/-- get_bottom_hexagon_model of chunk_view.rs: corners at elevation 0 with
normal straight down, fan indices with reversed winding. -/
noncomputable def get_bottom_hexagon_model (radius : ℝ)
    (vertices : List Vertex) (indices : List ℕ) : List Vertex × List ℕ :=
  let cur_len := vertices.length
  (vertices ++
    [⟨((hex_corner radius 0).1, (hex_corner radius 0).2, 0), (0, 0, -1)⟩,
     ⟨((hex_corner radius 1).1, (hex_corner radius 1).2, 0), (0, 0, -1)⟩,
     ⟨((hex_corner radius 2).1, (hex_corner radius 2).2, 0), (0, 0, -1)⟩,
     ⟨((hex_corner radius 3).1, (hex_corner radius 3).2, 0), (0, 0, -1)⟩,
     ⟨((hex_corner radius 4).1, (hex_corner radius 4).2, 0), (0, 0, -1)⟩,
     ⟨((hex_corner radius 5).1, (hex_corner radius 5).2, 0), (0, 0, -1)⟩,
     ⟨(0, 0, 0), (0, 0, -1)⟩],
   indices ++
    [cur_len + 1, cur_len + 6, cur_len + 0,
     cur_len + 0, cur_len + 6, cur_len + 5,
     cur_len + 5, cur_len + 6, cur_len + 4,
     cur_len + 4, cur_len + 6, cur_len + 3,
     cur_len + 3, cur_len + 6, cur_len + 2,
     cur_len + 2, cur_len + 6, cur_len + 1])

/-- get_side_hexagon_model of chunk_view.rs: one quad wall over the edge
between corners ind1 and ind2.  Note that the source computes the shared
normal as (y1 + y2, x1 + x2, 0), with the first two components swapped
relative to the sum (x1 + x2, y1 + y2) of the corner direction vectors. -/
noncomputable def get_side_hexagon_model (radius stepHeight : ℝ) (ind1 ind2 : ℤ)
    (vertices : List Vertex) (indices : List ℕ) : List Vertex × List ℕ :=
  let cur_len := vertices.length
  let x1 := (hex_corner radius ind1).1
  let y1 := (hex_corner radius ind1).2
  let x2 := (hex_corner radius ind2).1
  let y2 := (hex_corner radius ind2).2
  let normal : ℝ × ℝ × ℝ := (y1 + y2, x1 + x2, 0)
  (vertices ++
    [⟨(x1, y1, stepHeight), normal⟩,
     ⟨(x1, y1, 0), normal⟩,
     ⟨(x2, y2, stepHeight), normal⟩,
     ⟨(x2, y2, 0), normal⟩],
   indices ++
    [cur_len + 0, cur_len + 2, cur_len + 1,
     cur_len + 1, cur_len + 2, cur_len + 3])

/-- The corner-index pairs for which ChunkView::from_chunk emits side walls,
in call order (chunk_view.rs lines 32 to 37). -/
def sideEdgePairs : List (ℤ × ℤ) := [(4, 5), (1, 2), (5, 0), (0, 1), (3, 4), (2, 3)]

/-- The complete reference mesh built at the start of ChunkView::from_chunk:
top cap, then bottom cap, then the six side walls in sideEdgePairs order,
all appended into initially empty buffers. -/
noncomputable def buildMesh (radius stepHeight : ℝ) : List Vertex × List ℕ :=
  let s0 := get_top_hexagon_model radius stepHeight [] []
  let s1 := get_bottom_hexagon_model radius s0.1 s0.2
  sideEdgePairs.foldl
    (fun st p => get_side_hexagon_model radius stepHeight p.1 p.2 st.1 st.2) s1

/-- Modelled from the spec: HeightType::to_real of the base crate is not under
src/.  Spec section 4.3 states the third draw-offset component is
section.bottom and section 3 records elevations as scalar height units, so a
height value's real form is the value itself. -/
def height_to_real (u : ℤ) : ℝ := (u : ℝ)

/-- PillarSection of the base crate (consumed read-only by chunk_view.rs):
bottom and top elevation in height units and a ground material.  The material
type is a parameter since materials are authored outside this core. -/
structure PillarSection (Mat : Type) where
  bottom : ℤ
  top : ℤ
  ground : Mat

/-- PropType of the base crate: a closed tagged union whose only variant is a
plant.  The plant payload type is a parameter. -/
inductive PropType (PlantT : Type) where
  | plant (p : PlantT)

/-- A prop attached to a pillar: a baseline elevation and a typed variant. -/
structure PillarProp (PlantT : Type) where
  baseline : ℤ
  prop : PropType PlantT

/-- HexPillar of the base crate: section list plus prop list. -/
structure HexPillar (Mat PlantT : Type) where
  sections : List (PillarSection Mat)
  props : List (PillarProp PlantT)

instance {Mat PlantT : Type} : Inhabited (HexPillar Mat PlantT) := ⟨⟨[], []⟩⟩

/-- Chunk of the base crate: the ordered array of pillar records. -/
structure Chunk (Mat PlantT : Type) where
  pillars : List (HexPillar Mat PlantT)

/-- PillarView of chunk_view.rs: 2D world position, copied section list and
the constructed decoration views.  Plant views are opaque to this core, so
their type is a parameter. -/
structure PillarView (Mat PlantV : Type) where
  pos : ℝ × ℝ
  sections : List (PillarSection Mat)
  plants : List PlantV

instance {Mat PlantV : Type} : Inhabited (PillarView Mat PlantV) := ⟨⟨(0, 0), [], []⟩⟩

/-- ChunkView of chunk_view.rs: the shared vertex buffer, the pillar views and
the shared index buffer.  The compiled shader program is a GPU handle with no
observable structure here and is omitted. -/
structure ChunkView (Mat PlantV : Type) where
  vertices : List Vertex
  pillars : List (PillarView Mat PlantV)
  index_buffer : List ℕ

/-- Camera as consumed by ChunkView::draw: read-only projection and view
matrices of an opaque matrix type. -/
structure Camera (Mx : Type) where
  proj_matrix : Mx
  view_matrix : Mx

/-- PillarView::from_pillar of chunk_view.rs.  The external
PlantView::from_plant constructor is passed as the from_plant parameter; the
prop position is the pillar position paired with the prop's baseline
elevation. -/
def PillarView.from_pillar {Mat PlantT PlantV : Type}
    (from_plant : ℝ × ℝ × ℝ → PlantT → PlantV)
    (pos : ℝ × ℝ) (pillar : HexPillar Mat PlantT) : PillarView Mat PlantV :=
  { pos := pos
    sections := pillar.sections
    plants := pillar.props.map fun pr =>
      match pr.prop with
      | PropType.plant p => from_plant (pos.1, pos.2, height_to_real pr.baseline) p }

/-- ChunkView::from_chunk of chunk_view.rs.  The base-crate constant
CHUNK_SIZE is the parameter N, and the axial to_real projections (modelled
from the spec: the axial-to-Cartesian projection of the base crate is not
under src/) are the parameters axial_point_to_real and axial_vector_to_real.
Pillar q gets axial coordinates (q / N, q % N). -/
noncomputable def ChunkView.from_chunk {Mat PlantT PlantV : Type}
    (radius stepHeight : ℝ) (N : ℕ)
    (axial_point_to_real axial_vector_to_real : ℤ × ℤ → ℝ × ℝ)
    (from_plant : ℝ × ℝ × ℝ → PlantT → PlantV)
    (chunk : Chunk Mat PlantT) (offset : ℤ × ℤ) : ChunkView Mat PlantV :=
  let mesh := buildMesh radius stepHeight
  { vertices := mesh.1
    pillars := (List.range (N * N)).map fun q =>
      let pos := axial_point_to_real offset +
        axial_vector_to_real (((q / N : ℕ) : ℤ), ((q % N : ℕ) : ℤ))
      PillarView.from_pillar from_plant pos (chunk.pillars.getD q default)
    index_buffer := mesh.2 }

/-- One draw command submitted by ChunkView::draw: either a terrain draw of
the shared mesh with its per-draw uniforms, or a delegated decoration draw. -/
inductive DrawEvent (Col PlantV Mx : Type) where
  | terrain (height : ℝ) (offset : ℝ × ℝ × ℝ) (proj_matrix view_matrix : Mx)
      (material_color : Col)
  | plant (p : PlantV)

/-- True on terrain draw events. -/
def isTerrainEvent {Col PlantV Mx : Type} : DrawEvent Col PlantV Mx → Bool
  | DrawEvent.terrain _ _ _ _ _ => true
  | DrawEvent.plant _ => false

/-- ChunkView::draw of chunk_view.rs, modelled as the ordered list of draw
commands it submits: for every pillar view, one terrain draw per section with
uniforms height = top - bottom, offset = (pos.x, pos.y, bottom.to_real),
the camera matrices and the ground material's color, followed by one
delegated draw per plant view.  Material::get_color of the base crate is the
get_color parameter. -/
def ChunkView.draw {Mat Col PlantV Mx : Type} (get_color : Mat → Col)
    (camera : Camera Mx) (cv : ChunkView Mat PlantV) : List (DrawEvent Col PlantV Mx) :=
  cv.pillars.flatMap fun pillar =>
    (pillar.sections.map fun s =>
      DrawEvent.terrain (((s.top - s.bottom : ℤ) : ℝ))
        (pillar.pos.1, pillar.pos.2, height_to_real s.bottom)
        camera.proj_matrix camera.view_matrix (get_color s.ground))
    ++ pillar.plants.map DrawEvent.plant

/-- The glium depth-test modes used by this core. -/
inductive DepthTest where
  | ifLess

/-- The glium backface-culling modes. -/
inductive BackfaceCullingMode where
  | cullingDisabled
  | cullCounterClockwise
  | cullClockwise

/-- The draw-parameter fields chunk_view.rs sets explicitly. -/
structure DrawParameters where
  depth_write : Bool
  depth_test : DepthTest
  backface_culling : BackfaceCullingMode

/-- The DrawParameters built in ChunkView::draw: depth write on, depth test
IfLess, counter-clockwise faces culled. -/
def chunk_draw_params : DrawParameters :=
  { depth_write := true
    depth_test := DepthTest.ifLess
    backface_culling := BackfaceCullingMode.cullCounterClockwise }

/-- Twice the signed area of a plane triangle, taken in vertex order. -/
def cross2 (a b c : ℝ × ℝ) : ℝ :=
  (b.1 - a.1) * (c.2 - a.2) - (b.2 - a.2) * (c.1 - a.1)

/-- The xy-projection of the mesh vertex addressed by slot j of the index list
of the top-cap model built into empty buffers. -/
noncomputable def top_cap_vertex_xy (radius stepHeight : ℝ) (j : ℕ) : ℝ × ℝ :=
  let m := get_top_hexagon_model radius stepHeight [] []
  let v := m.1.getD (m.2.getD j 0) default
  (v.position.1, v.position.2.1)

/-! ### Closed forms of the six hexagon corners -/

theorem hex_corner_zero (radius : ℝ) :
    hex_corner radius 0 = (radius * (Real.sqrt 3 / 2), radius * (1 / 2)) := by
  have ha : (Real.pi / 180) * (60 * ((0 : ℤ) : ℝ) + 30) = Real.pi / 6 := by
    push_cast; ring
  simp only [hex_corner, ha, Real.cos_pi_div_six, Real.sin_pi_div_six]

theorem hex_corner_one (radius : ℝ) : hex_corner radius 1 = (0, radius) := by
  have ha : (Real.pi / 180) * (60 * ((1 : ℤ) : ℝ) + 30) = Real.pi / 2 := by
    push_cast; ring
  simp only [hex_corner, ha, Real.cos_pi_div_two, Real.sin_pi_div_two,
    mul_zero, mul_one]

theorem hex_corner_two (radius : ℝ) :
    hex_corner radius 2 = (-(radius * (Real.sqrt 3 / 2)), radius * (1 / 2)) := by
  have ha : (Real.pi / 180) * (60 * ((2 : ℤ) : ℝ) + 30) = Real.pi - Real.pi / 6 := by
    push_cast; ring
  simp only [hex_corner, ha, Real.cos_pi_sub, Real.sin_pi_sub,
    Real.cos_pi_div_six, Real.sin_pi_div_six, mul_neg]

theorem hex_corner_three (radius : ℝ) :
    hex_corner radius 3 = (-(radius * (Real.sqrt 3 / 2)), -(radius * (1 / 2))) := by
  have ha : (Real.pi / 180) * (60 * ((3 : ℤ) : ℝ) + 30) = Real.pi + Real.pi / 6 := by
    push_cast; ring
  simp only [hex_corner, ha, Real.cos_add, Real.sin_add, Real.cos_pi, Real.sin_pi,
    Real.cos_pi_div_six, Real.sin_pi_div_six, Prod.mk.injEq]
  constructor <;> ring

theorem hex_corner_four (radius : ℝ) : hex_corner radius 4 = (0, -radius) := by
  have ha : (Real.pi / 180) * (60 * ((4 : ℤ) : ℝ) + 30) = Real.pi + Real.pi / 2 := by
    push_cast; ring
  simp only [hex_corner, ha, Real.cos_add, Real.sin_add, Real.cos_pi, Real.sin_pi,
    Real.cos_pi_div_two, Real.sin_pi_div_two, Prod.mk.injEq]
  constructor <;> ring

theorem hex_corner_five (radius : ℝ) :
    hex_corner radius 5 = (radius * (Real.sqrt 3 / 2), -(radius * (1 / 2))) := by
  have ha : (Real.pi / 180) * (60 * ((5 : ℤ) : ℝ) + 30) =
      2 * Real.pi - Real.pi / 6 := by
    push_cast; ring
  simp only [hex_corner, ha, Real.cos_sub, Real.sin_sub, Real.cos_two_pi,
    Real.sin_two_pi, Real.cos_pi_div_six, Real.sin_pi_div_six, Prod.mk.injEq]
  constructor <;> ring

/-- Claim C8: for every corner index i and every radius r at least 0,
hex_corner r i lies at distance exactly r from the prism axis, and its
coordinates are r times the cosine and sine of the angle of 60 i + 30
degrees. -/
theorem hex_corner_on_circle (radius : ℝ) (i : ℤ) (hr : 0 ≤ radius) :
    Real.sqrt ((hex_corner radius i).1 ^ 2 + (hex_corner radius i).2 ^ 2) = radius ∧
    hex_corner radius i =
      (radius * Real.cos ((60 * (i : ℝ) + 30) * (Real.pi / 180)),
       radius * Real.sin ((60 * (i : ℝ) + 30) * (Real.pi / 180))) := by
  constructor
  · have h1 : (hex_corner radius i).1 ^ 2 + (hex_corner radius i).2 ^ 2 =
        radius ^ 2 := by
      simp only [hex_corner]
      have hs := Real.sin_sq_add_cos_sq ((Real.pi / 180) * (60 * (i : ℝ) + 30))
      nlinarith [hs]
    rw [h1, Real.sqrt_sq hr]
  · simp only [hex_corner, mul_comm (Real.pi / 180)]

/-- Witness for hex_corner_on_circle at radius 2 and corner 0. -/
theorem hex_corner_on_circle_witness :
    Real.sqrt ((hex_corner 2 0).1 ^ 2 + (hex_corner 2 0).2 ^ 2) = 2 :=
  (hex_corner_on_circle 2 0 (by norm_num)).1

/-- Claim C4: under the renderer's convention that counter-clockwise faces
are culled (chunk_draw_params), every top-cap fan triangle, taken in index
order, has negative signed area when projected to the xy-plane, i.e. it is
wound clockwise seen from above, for any positive radius. -/
theorem top_cap_winding (radius stepHeight : ℝ) (hr : 0 < radius) (k : Fin 6) :
    chunk_draw_params.backface_culling = BackfaceCullingMode.cullCounterClockwise ∧
    cross2 (top_cap_vertex_xy radius stepHeight (3 * k.val))
      (top_cap_vertex_xy radius stepHeight (3 * k.val + 1))
      (top_cap_vertex_xy radius stepHeight (3 * k.val + 2)) < 0 := by
  have h3 : 0 < Real.sqrt 3 := Real.sqrt_pos.mpr (by norm_num)
  have hrr : 0 < radius * radius := mul_pos hr hr
  have hp := mul_pos h3 hrr
  refine ⟨rfl, ?_⟩
  fin_cases k
  · show cross2 ((hex_corner radius 0).1, (hex_corner radius 0).2) (0, 0)
        ((hex_corner radius 1).1, (hex_corner radius 1).2) < 0
    rw [hex_corner_zero, hex_corner_one]
    simp only [cross2]
    nlinarith [hp]
  · show cross2 ((hex_corner radius 5).1, (hex_corner radius 5).2) (0, 0)
        ((hex_corner radius 0).1, (hex_corner radius 0).2) < 0
    rw [hex_corner_five, hex_corner_zero]
    simp only [cross2]
    nlinarith [hp]
  · show cross2 ((hex_corner radius 4).1, (hex_corner radius 4).2) (0, 0)
        ((hex_corner radius 5).1, (hex_corner radius 5).2) < 0
    rw [hex_corner_four, hex_corner_five]
    simp only [cross2]
    nlinarith [hp]
  · show cross2 ((hex_corner radius 3).1, (hex_corner radius 3).2) (0, 0)
        ((hex_corner radius 4).1, (hex_corner radius 4).2) < 0
    rw [hex_corner_three, hex_corner_four]
    simp only [cross2]
    nlinarith [hp]
  · show cross2 ((hex_corner radius 2).1, (hex_corner radius 2).2) (0, 0)
        ((hex_corner radius 3).1, (hex_corner radius 3).2) < 0
    rw [hex_corner_two, hex_corner_three]
    simp only [cross2]
    nlinarith [hp]
  · show cross2 ((hex_corner radius 1).1, (hex_corner radius 1).2) (0, 0)
        ((hex_corner radius 2).1, (hex_corner radius 2).2) < 0
    rw [hex_corner_one, hex_corner_two]
    simp only [cross2]
    nlinarith [hp]

/-- Witness for top_cap_winding at radius 1, step height 1 and triangle 0. -/
theorem top_cap_winding_witness :
    chunk_draw_params.backface_culling = BackfaceCullingMode.cullCounterClockwise ∧
    cross2 (top_cap_vertex_xy 1 1 (3 * (0 : Fin 6).val))
      (top_cap_vertex_xy 1 1 (3 * (0 : Fin 6).val + 1))
      (top_cap_vertex_xy 1 1 (3 * (0 : Fin 6).val + 2)) < 0 :=
  top_cap_winding 1 1 (by norm_num) 0

/-- Claim C1, evaluated at the failing input: the side wall built by
get_side_hexagon_model over the edge with corners 4 and 5 at radius 1 gives
all four vertices the normal (y1 + y2, x1 + x2, 0) = (-3/2, sqrt 3 / 2, 0),
which differs from the claimed sum of the corner direction vectors
(x1 + x2, y1 + y2, 0), and which has negative dot product with that outward
sum, so it does not point outward from the prism axis. -/
theorem side_wall_normal_swapped :
    ((get_side_hexagon_model 1 1 4 5 [] []).1.map Vertex.normal)
        = List.replicate 4 (-(3 / 2 : ℝ), Real.sqrt 3 / 2, (0 : ℝ)) ∧
    (-(3 / 2 : ℝ), Real.sqrt 3 / 2, (0 : ℝ)) ≠
      ((hex_corner 1 4).1 + (hex_corner 1 5).1,
       (hex_corner 1 4).2 + (hex_corner 1 5).2, (0 : ℝ)) ∧
    (-(3 / 2 : ℝ)) * ((hex_corner 1 4).1 + (hex_corner 1 5).1) +
        (Real.sqrt 3 / 2) * ((hex_corner 1 4).2 + (hex_corner 1 5).2) < 0 := by
  have h3 : 0 < Real.sqrt 3 := Real.sqrt_pos.mpr (by norm_num)
  have h4 := hex_corner_four 1
  have h5 := hex_corner_five 1
  refine ⟨?_, ?_, ?_⟩
  · simp only [get_side_hexagon_model, h4, h5, List.nil_append, List.map_cons,
      List.map_nil, List.replicate]
    norm_num
  · rw [h4, h5]
    simp only [Prod.mk.injEq, ne_eq, not_and]
    intro hx
    exfalso
    nlinarith [hx]
  · rw [h4, h5]
    nlinarith [h3]

/-- The indices appended by get_top_hexagon_model, after any prior content. -/
theorem top_drop_indices (radius stepHeight : ℝ) (vs : List Vertex) (is : List ℕ) :
    (get_top_hexagon_model radius stepHeight vs is).2.drop is.length =
      [vs.length + 0, vs.length + 6, vs.length + 1,
       vs.length + 5, vs.length + 6, vs.length + 0,
       vs.length + 4, vs.length + 6, vs.length + 5,
       vs.length + 3, vs.length + 6, vs.length + 4,
       vs.length + 2, vs.length + 6, vs.length + 3,
       vs.length + 1, vs.length + 6, vs.length + 2] := by
  simp only [get_top_hexagon_model]
  exact List.drop_left is _

/-- The indices appended by get_bottom_hexagon_model, after any prior
content. -/
theorem bottom_drop_indices (radius : ℝ) (vs : List Vertex) (is : List ℕ) :
    (get_bottom_hexagon_model radius vs is).2.drop is.length =
      [vs.length + 1, vs.length + 6, vs.length + 0,
       vs.length + 0, vs.length + 6, vs.length + 5,
       vs.length + 5, vs.length + 6, vs.length + 4,
       vs.length + 4, vs.length + 6, vs.length + 3,
       vs.length + 3, vs.length + 6, vs.length + 2,
       vs.length + 2, vs.length + 6, vs.length + 1] := by
  simp only [get_bottom_hexagon_model]
  exact List.drop_left is _

/-- The vertices appended by get_top_hexagon_model. -/
theorem top_drop_vertices (radius stepHeight : ℝ) (vs : List Vertex) (is : List ℕ) :
    (get_top_hexagon_model radius stepHeight vs is).1.drop vs.length =
      [⟨((hex_corner radius 0).1, (hex_corner radius 0).2, stepHeight), (0, 0, 1)⟩,
       ⟨((hex_corner radius 1).1, (hex_corner radius 1).2, stepHeight), (0, 0, 1)⟩,
       ⟨((hex_corner radius 2).1, (hex_corner radius 2).2, stepHeight), (0, 0, 1)⟩,
       ⟨((hex_corner radius 3).1, (hex_corner radius 3).2, stepHeight), (0, 0, 1)⟩,
       ⟨((hex_corner radius 4).1, (hex_corner radius 4).2, stepHeight), (0, 0, 1)⟩,
       ⟨((hex_corner radius 5).1, (hex_corner radius 5).2, stepHeight), (0, 0, 1)⟩,
       ⟨(0, 0, stepHeight), (0, 0, 1)⟩] := by
  simp only [get_top_hexagon_model]
  exact List.drop_left vs _

/-- The vertices appended by get_bottom_hexagon_model. -/
theorem bottom_drop_vertices (radius : ℝ) (vs : List Vertex) (is : List ℕ) :
    (get_bottom_hexagon_model radius vs is).1.drop vs.length =
      [⟨((hex_corner radius 0).1, (hex_corner radius 0).2, 0), (0, 0, -1)⟩,
       ⟨((hex_corner radius 1).1, (hex_corner radius 1).2, 0), (0, 0, -1)⟩,
       ⟨((hex_corner radius 2).1, (hex_corner radius 2).2, 0), (0, 0, -1)⟩,
       ⟨((hex_corner radius 3).1, (hex_corner radius 3).2, 0), (0, 0, -1)⟩,
       ⟨((hex_corner radius 4).1, (hex_corner radius 4).2, 0), (0, 0, -1)⟩,
       ⟨((hex_corner radius 5).1, (hex_corner radius 5).2, 0), (0, 0, -1)⟩,
       ⟨(0, 0, 0), (0, 0, -1)⟩] := by
  simp only [get_bottom_hexagon_model]
  exact List.drop_left vs _

/-- Claim C3: the top-cap builder appends exactly 7 vertices, all with normal
straight up, and 18 indices forming 6 fan triangles each containing the
center vertex (local index 6); the bottom-cap builder likewise with normals
straight down; and for each k the bottom cap's k-th triangle is the reversal
of the top cap's k-th triangle in local indices. -/
theorem caps_fan_structure (radius stepHeight : ℝ) (vs vs2 : List Vertex)
    (is is2 : List ℕ) (k : Fin 6) :
    (get_top_hexagon_model radius stepHeight vs is).1.length = vs.length + 7 ∧
    (get_top_hexagon_model radius stepHeight vs is).2.length = is.length + 18 ∧
    ((get_top_hexagon_model radius stepHeight vs is).1.drop vs.length).map
        Vertex.normal = List.replicate 7 (0, 0, 1) ∧
    (get_bottom_hexagon_model radius vs2 is2).1.length = vs2.length + 7 ∧
    (get_bottom_hexagon_model radius vs2 is2).2.length = is2.length + 18 ∧
    ((get_bottom_hexagon_model radius vs2 is2).1.drop vs2.length).map
        Vertex.normal = List.replicate 7 (0, 0, -1) ∧
    vs.length + 6 ∈
      (((get_top_hexagon_model radius stepHeight vs is).2.drop is.length).drop
        (3 * k.val)).take 3 ∧
    vs2.length + 6 ∈
      (((get_bottom_hexagon_model radius vs2 is2).2.drop is2.length).drop
        (3 * k.val)).take 3 ∧
    ((((get_bottom_hexagon_model radius vs2 is2).2.drop is2.length).map
        (fun n => n - vs2.length)).drop (3 * k.val)).take 3 =
      (((((get_top_hexagon_model radius stepHeight vs is).2.drop is.length).map
        (fun n => n - vs.length)).drop (3 * k.val)).take 3).reverse := by
  refine ⟨?_, ?_, ?_, ?_, ?_, ?_, ?_, ?_, ?_⟩
  · simp [get_top_hexagon_model]
  · simp [get_top_hexagon_model]
  · rw [top_drop_vertices]
    rfl
  · simp [get_bottom_hexagon_model]
  · simp [get_bottom_hexagon_model]
  · rw [bottom_drop_vertices]
    rfl
  · rw [top_drop_indices]
    fin_cases k <;> simp
  · rw [bottom_drop_indices]
    fin_cases k <;> simp
  · rw [top_drop_indices, bottom_drop_indices]
    simp only [List.map_cons, List.map_nil, Nat.add_sub_cancel_left]
    fin_cases k <;> rfl

/-- Claim C6: from_chunk emits one side wall for each of the six edge pairs
(4,5), (1,2), (5,0), (0,1), (3,4), (2,3), with no pair duplicated or omitted,
and each wall call appends exactly 4 vertices and 6 indices (2 triangles). -/
theorem side_walls_edges (radius stepHeight : ℝ) (ind1 ind2 : ℤ)
    (vs : List Vertex) (is : List ℕ) :
    sideEdgePairs.length = 6 ∧
    sideEdgePairs.Nodup ∧
    sideEdgePairs.toFinset =
      ({(4, 5), (1, 2), (5, 0), (0, 1), (3, 4), (2, 3)} : Finset (ℤ × ℤ)) ∧
    (get_side_hexagon_model radius stepHeight ind1 ind2 vs is).1.length =
      vs.length + 4 ∧
    (get_side_hexagon_model radius stepHeight ind1 ind2 vs is).2.length =
      is.length + 6 := by
  refine ⟨rfl, by decide, by decide, ?_, ?_⟩
  · simp [get_side_hexagon_model]
  · simp [get_side_hexagon_model]

/-- Claim C7: for every chunk and every parameterization, the reference mesh
stored in the constructed ChunkView has exactly 38 vertices and 72 indices,
independent of the chunk's contents. -/
theorem from_chunk_mesh_size {Mat PlantT PlantV : Type}
    (radius stepHeight : ℝ) (N : ℕ)
    (axial_point_to_real axial_vector_to_real : ℤ × ℤ → ℝ × ℝ)
    (from_plant : ℝ × ℝ × ℝ → PlantT → PlantV)
    (chunk : Chunk Mat PlantT) (offset : ℤ × ℤ) :
    (ChunkView.from_chunk radius stepHeight N axial_point_to_real
        axial_vector_to_real from_plant chunk offset).vertices.length = 38 ∧
    (ChunkView.from_chunk radius stepHeight N axial_point_to_real
        axial_vector_to_real from_plant chunk offset).index_buffer.length = 72 :=
  ⟨rfl, rfl⟩

/-- Index-bound invariant: the top-cap builder keeps every index smaller than
the vertex-buffer length. -/
theorem get_top_bounds (radius stepHeight : ℝ) (vs : List Vertex) (is : List ℕ)
    (H : ∀ i ∈ is, i < vs.length) :
    ∀ i ∈ (get_top_hexagon_model radius stepHeight vs is).2,
      i < (get_top_hexagon_model radius stepHeight vs is).1.length := by
  intro i hi
  simp only [get_top_hexagon_model, List.mem_append, List.mem_cons,
    List.not_mem_nil, or_false] at hi
  simp only [get_top_hexagon_model, List.length_append, List.length_cons,
    List.length_nil]
  rcases hi with hi | hi
  · have := H i hi
    omega
  · omega

/-- Index-bound invariant for the bottom-cap builder. -/
theorem get_bottom_bounds (radius : ℝ) (vs : List Vertex) (is : List ℕ)
    (H : ∀ i ∈ is, i < vs.length) :
    ∀ i ∈ (get_bottom_hexagon_model radius vs is).2,
      i < (get_bottom_hexagon_model radius vs is).1.length := by
  intro i hi
  simp only [get_bottom_hexagon_model, List.mem_append, List.mem_cons,
    List.not_mem_nil, or_false] at hi
  simp only [get_bottom_hexagon_model, List.length_append, List.length_cons,
    List.length_nil]
  rcases hi with hi | hi
  · have := H i hi
    omega
  · omega

/-- Index-bound invariant for the side-wall builder. -/
theorem get_side_bounds (radius stepHeight : ℝ) (ind1 ind2 : ℤ)
    (vs : List Vertex) (is : List ℕ) (H : ∀ i ∈ is, i < vs.length) :
    ∀ i ∈ (get_side_hexagon_model radius stepHeight ind1 ind2 vs is).2,
      i < (get_side_hexagon_model radius stepHeight ind1 ind2 vs is).1.length := by
  intro i hi
  simp only [get_side_hexagon_model, List.mem_append, List.mem_cons,
    List.not_mem_nil, or_false] at hi
  simp only [get_side_hexagon_model, List.length_append, List.length_cons,
    List.length_nil]
  rcases hi with hi | hi
  · have := H i hi
    omega
  · omega

/-- Index-bound invariant for any sequence of side-wall emissions. -/
theorem sides_foldl_bounds (radius stepHeight : ℝ) (ps : List (ℤ × ℤ)) :
    ∀ st : List Vertex × List ℕ, (∀ i ∈ st.2, i < st.1.length) →
      ∀ i ∈ (ps.foldl
          (fun st p => get_side_hexagon_model radius stepHeight p.1 p.2 st.1 st.2)
          st).2,
        i < (ps.foldl
          (fun st p => get_side_hexagon_model radius stepHeight p.1 p.2 st.1 st.2)
          st).1.length := by
  induction ps with
  | nil => intro st H; simpa using H
  | cons p ps ih =>
      intro st H
      simp only [List.foldl_cons]
      exact ih _ (get_side_bounds radius stepHeight p.1 p.2 st.1 st.2 H)

/-- Claim C10: every index in the constructed ChunkView's index buffer is
strictly smaller than the number of vertices in its vertex buffer, so every
index addresses a valid vertex. -/
theorem mesh_indices_in_bounds {Mat PlantT PlantV : Type}
    (radius stepHeight : ℝ) (N : ℕ)
    (axial_point_to_real axial_vector_to_real : ℤ × ℤ → ℝ × ℝ)
    (from_plant : ℝ × ℝ × ℝ → PlantT → PlantV)
    (chunk : Chunk Mat PlantT) (offset : ℤ × ℤ) :
    ∀ i ∈ (ChunkView.from_chunk radius stepHeight N axial_point_to_real
        axial_vector_to_real from_plant chunk offset).index_buffer,
      i < (ChunkView.from_chunk radius stepHeight N axial_point_to_real
        axial_vector_to_real from_plant chunk offset).vertices.length := by
  show ∀ i ∈ (buildMesh radius stepHeight).2,
      i < (buildMesh radius stepHeight).1.length
  have h0 : ∀ i ∈ ([] : List ℕ), i < ([] : List Vertex).length := by
    intro i hi
    simp at hi
  have h1 := get_top_bounds radius stepHeight [] [] h0
  have h2 := get_bottom_bounds radius
    (get_top_hexagon_model radius stepHeight [] []).1
    (get_top_hexagon_model radius stepHeight [] []).2 h1
  exact sides_foldl_bounds radius stepHeight sideEdgePairs _ h2

/-- Witness for mesh_indices_in_bounds: the first index of the mesh of a
concrete one-pillar chunk view addresses a valid vertex. -/
theorem mesh_indices_in_bounds_witness :
    (0 : ℕ) < (@ChunkView.from_chunk Unit Unit Unit 1 1 1 (fun _ => (0, 0))
      (fun _ => (0, 0)) (fun _ _ => ()) ⟨[⟨[], []⟩]⟩ (0, 0)).vertices.length :=
  mesh_indices_in_bounds 1 1 1 (fun _ => (0, 0)) (fun _ => (0, 0))
    (fun _ _ => ()) ⟨[⟨[], []⟩]⟩ (0, 0) 0 (List.Mem.head _)

/-- Claim C5: from_chunk produces exactly N * N pillar views; the view at
linear index q sits at the chunk's world offset plus the projection of the
axial coordinates (q / N, q % N); its section list is copied verbatim from
the source pillar; and the map q to (q / N, q % N) covers every grid cell
exactly once. -/
theorem from_chunk_pillars {Mat PlantT PlantV : Type}
    (radius stepHeight : ℝ) (N : ℕ)
    (axial_point_to_real axial_vector_to_real : ℤ × ℤ → ℝ × ℝ)
    (from_plant : ℝ × ℝ × ℝ → PlantT → PlantV)
    (chunk : Chunk Mat PlantT) (offset : ℤ × ℤ) :
    (ChunkView.from_chunk radius stepHeight N axial_point_to_real
        axial_vector_to_real from_plant chunk offset).pillars.length = N * N ∧
    (∀ q : ℕ, q < N * N →
      ((ChunkView.from_chunk radius stepHeight N axial_point_to_real
          axial_vector_to_real from_plant chunk offset).pillars.getD q
          default).pos =
        axial_point_to_real offset +
          axial_vector_to_real (((q / N : ℕ) : ℤ), ((q % N : ℕ) : ℤ)) ∧
      ((ChunkView.from_chunk radius stepHeight N axial_point_to_real
          axial_vector_to_real from_plant chunk offset).pillars.getD q
          default).sections =
        (chunk.pillars.getD q default).sections) ∧
    (∀ a b : ℕ, a < N → b < N →
      ∃! q : ℕ, q < N * N ∧ q / N = a ∧ q % N = b) := by
  refine ⟨?_, ?_, ?_⟩
  · simp [ChunkView.from_chunk]
  · intro q hq
    have hg : (ChunkView.from_chunk radius stepHeight N axial_point_to_real
        axial_vector_to_real from_plant chunk offset).pillars.getD q default =
        PillarView.from_pillar from_plant
          (axial_point_to_real offset +
            axial_vector_to_real (((q / N : ℕ) : ℤ), ((q % N : ℕ) : ℤ)))
          (chunk.pillars.getD q default) := by
      simp only [ChunkView.from_chunk]
      rw [List.getD_eq_getElem?_getD, List.getElem?_map, List.getElem?_range hq]
      rfl
    rw [hg]
    exact ⟨rfl, rfl⟩
  · intro a b ha hb
    have hN : 0 < N := Nat.lt_of_le_of_lt (Nat.zero_le a) ha
    refine ⟨N * a + b, ⟨?_, ?_, ?_⟩, ?_⟩
    · have h2 : N * a + N = N * (a + 1) := by ring
      have h3 : N * (a + 1) ≤ N * N := Nat.mul_le_mul_left N (by omega)
      omega
    · rw [Nat.mul_add_div hN, Nat.div_eq_of_lt hb, Nat.add_zero]
    · rw [Nat.mul_add_mod N a b, Nat.mod_eq_of_lt hb]
    · rintro q ⟨hq, hdiv, hmod⟩
      have hqe := Nat.div_add_mod q N
      rw [hdiv, hmod] at hqe
      omega

/-- Witness for from_chunk_pillars: a one-pillar chunk of side 1 whose single
pillar view sits at offset (1, 2) plus projection (0, 0). -/
theorem from_chunk_pillars_witness :
    (@ChunkView.from_chunk Unit Unit Unit 1 1 1 (fun _ => (1, 2))
        (fun p => ((p.1 : ℝ), (p.2 : ℝ))) (fun _ _ => ())
        ⟨[⟨[⟨0, 1, ()⟩], []⟩]⟩ (0, 0)).pillars.length = 1 ∧
    ((@ChunkView.from_chunk Unit Unit Unit 1 1 1 (fun _ => (1, 2))
        (fun p => ((p.1 : ℝ), (p.2 : ℝ))) (fun _ _ => ())
        ⟨[⟨[⟨0, 1, ()⟩], []⟩]⟩ (0, 0)).pillars.getD 0 default).pos = (1, 2) ∧
    (∃! q : ℕ, q < 1 * 1 ∧ q / 1 = 0 ∧ q % 1 = 0) := by
  obtain ⟨h1, h2, h3⟩ := @from_chunk_pillars Unit Unit Unit 1 1 1
    (fun _ => (1, 2)) (fun p => ((p.1 : ℝ), (p.2 : ℝ))) (fun _ _ => ())
    ⟨[⟨[⟨0, 1, ()⟩], []⟩]⟩ (0, 0)
  refine ⟨h1, ?_, h3 0 0 Nat.one_pos Nat.one_pos⟩
  have h4 := (h2 0 (by norm_num)).1
  rw [h4]
  simp [Prod.mk_add_mk]

/-- Claim C2: every section of every pillar view yields a terrain draw event
whose height uniform is top minus bottom (positive under the section
invariant), whose offset uniform is (pos.x, pos.y, bottom) and whose material
color is the ground material's color. -/
theorem draw_section_uniforms {Mat Col PlantV Mx : Type} (get_color : Mat → Col)
    (camera : Camera Mx) (cv : ChunkView Mat PlantV)
    (p : PillarView Mat PlantV) (s : PillarSection Mat)
    (hp : p ∈ cv.pillars) (hs : s ∈ p.sections) :
    DrawEvent.terrain (((s.top - s.bottom : ℤ) : ℝ))
        (p.pos.1, p.pos.2, height_to_real s.bottom)
        camera.proj_matrix camera.view_matrix (get_color s.ground)
      ∈ ChunkView.draw get_color camera cv ∧
    (s.bottom < s.top → (0 : ℝ) < ((s.top - s.bottom : ℤ) : ℝ)) ∧
    height_to_real s.bottom = ((s.bottom : ℤ) : ℝ) := by
  refine ⟨?_, ?_, rfl⟩
  · simp only [ChunkView.draw]
    rw [List.mem_flatMap]
    refine ⟨p, hp, ?_⟩
    rw [List.mem_append]
    left
    rw [List.mem_map]
    exact ⟨s, hs, rfl⟩
  · intro h
    have h2 : (0 : ℤ) < s.top - s.bottom := by omega
    exact_mod_cast h2

/-- Witness for draw_section_uniforms: a pillar at world position (2, 5) with
a section from bottom 0 to top 3 yields a terrain draw with offset (2, 5, 0)
and height 3. -/
theorem draw_section_uniforms_witness :
    DrawEvent.terrain (3 : ℝ) ((2 : ℝ), (5 : ℝ), (0 : ℝ)) () () () ∈
      ChunkView.draw (fun _ : Unit => ()) (⟨(), ()⟩ : Camera Unit)
        (⟨[], [⟨(2, 5), [⟨0, 3, ()⟩], []⟩], []⟩ : ChunkView Unit Unit) ∧
    (0 : ℝ) < 3 := by
  have h := draw_section_uniforms (fun _ : Unit => ()) (⟨(), ()⟩ : Camera Unit)
    (⟨[], [⟨(2, 5), [⟨0, 3, ()⟩], []⟩], []⟩ : ChunkView Unit Unit)
    ⟨(2, 5), [⟨0, 3, ()⟩], []⟩ ⟨0, 3, ()⟩ (by simp) (by simp)
  refine ⟨?_, by norm_num⟩
  have h1 := h.1
  norm_num [height_to_real] at h1
  exact h1

/-- isTerrainEvent is true on terrain events. -/
theorem isTerrainEvent_terrain {Col PlantV Mx : Type} (h : ℝ) (o : ℝ × ℝ × ℝ)
    (pm vm : Mx) (mc : Col) :
    isTerrainEvent (DrawEvent.terrain h o pm vm mc : DrawEvent Col PlantV Mx) = true :=
  rfl

/-- isTerrainEvent is false on decoration events. -/
theorem isTerrainEvent_plant {Col PlantV Mx : Type} (p : PlantV) :
    isTerrainEvent (DrawEvent.plant p : DrawEvent Col PlantV Mx) = false :=
  rfl

/-- Claim C9: draw issues exactly one terrain draw per section (their total is
the sum of section counts over all pillar views) and one decoration draw per
plant view; a chunk view with zero pillars issues no draws at all. -/
theorem draw_call_counts {Mat Col PlantV Mx : Type} (get_color : Mat → Col)
    (camera : Camera Mx) (cv : ChunkView Mat PlantV) :
    (ChunkView.draw get_color camera cv).countP isTerrainEvent =
      (cv.pillars.map fun p => p.sections.length).sum ∧
    (ChunkView.draw get_color camera cv).countP (fun e => !isTerrainEvent e) =
      (cv.pillars.map fun p => p.plants.length).sum ∧
    (cv.pillars = [] → ChunkView.draw get_color camera cv = []) := by
  obtain ⟨vs, ps, ib⟩ := cv
  refine ⟨?_, ?_, ?_⟩
  · simp only [ChunkView.draw]
    induction ps with
    | nil => rfl
    | cons p ps ih =>
        simp only [List.flatMap_cons, List.countP_append, List.countP_map,
          Function.comp_def, isTerrainEvent_terrain, isTerrainEvent_plant,
          List.countP_true, List.countP_false, Function.const_apply,
          List.map_cons, List.sum_cons, add_zero, zero_add, ih]
  · simp only [ChunkView.draw]
    induction ps with
    | nil => rfl
    | cons p ps ih =>
        simp only [List.flatMap_cons, List.countP_append, List.countP_map,
          Function.comp_def, isTerrainEvent_terrain, isTerrainEvent_plant,
          Bool.not_true, Bool.not_false, List.countP_true, List.countP_false,
          Function.const_apply, List.map_cons, List.sum_cons, add_zero,
          zero_add, ih]
  · intro h
    simp only at h
    subst h
    rfl

/-- Witness for draw_call_counts: the empty chunk view issues no draws. -/
theorem draw_call_counts_witness :
    ChunkView.draw (fun _ : Unit => ()) (⟨(), ()⟩ : Camera Unit)
      (⟨[], [], []⟩ : ChunkView Unit Unit) = [] :=
  (draw_call_counts (fun _ : Unit => ()) (⟨(), ()⟩ : Camera Unit)
    (⟨[], [], []⟩ : ChunkView Unit Unit)).2.2 rfl

end Plantex
